import Mathlib

/-!
Verification of the configuration aggregation and environment-override engine
of the k8s-tester repository (package k8s_tester: Load, Sync, unsafeSync,
UpdateFromEnvs, parseEnvs).

The Go code walks the fields of a configuration record by reflection.  The
shallow embedding represents one record as a list of fields, each carrying the
reflective metadata the Go loop reads (struct field name, json tag, read-only
tag, type name) together with its value, one constructor per reflect.Kind the
loop distinguishes.  The Go standard-library parsing helpers used by the loop
(strconv.ParseBool, strconv.ParseInt, strconv.ParseUint, time.ParseDuration,
strings.Split, strings.Replace, strings.ToUpper, json.Unmarshal into a
map of string to string) are embedded as executable Lean functions below.
-/

namespace K8sTester

/-- Numeric value of a decimal digit character, none for other characters. -/
def digitVal? (c : Char) : Option Nat :=
  if ('0' ≤ c ∧ c ≤ '9') then some (c.toNat - '0'.toNat) else none

/-- ASCII upper-casing of one character (strings.ToUpper on the ASCII subset;
all json tags in the source are ASCII). -/
def goUpperChar (c : Char) : Char :=
  if ('a' ≤ c ∧ c ≤ 'z') then Char.ofNat (c.toNat - 32) else c

/-- Embedding of strings.ToUpper restricted to ASCII letters. -/
def goToUpper (s : String) : String := String.mk (s.data.map goUpperChar)

/-- If pat is a prefix of s, return the remainder of s, else none. -/
def stripPfx? : List Char → List Char → Option (List Char)
  | [], s => some s
  | _ :: _, [] => none
  | p :: ps, c :: cs => if p = c then stripPfx? ps cs else none

/-- Worker for goReplace: scan left to right, replacing non-overlapping
occurrences of pat by rep.  The fuel argument bounds the recursion and is
always large enough at the call site. -/
def replaceAllAux : Nat → List Char → List Char → List Char → List Char
  | 0, s, _, _ => s
  | _ + 1, [], _, _ => []
  | fuel + 1, c :: cs, pat, rep =>
    match stripPfx? pat (c :: cs) with
    | some rest => rep ++ replaceAllAux fuel rest pat rep
    | none => c :: replaceAllAux fuel cs pat rep

/-- Embedding of strings.Replace(s, pat, rep, -1) for a non-empty pattern
(the source only ever replaces the non-empty patterns ",omitempty" and "-").
For an empty pattern Go would splice rep between characters; the model keeps
the string unchanged in that unused case. -/
def goReplace (s pat rep : String) : String :=
  if pat = "" then s
  else String.mk (replaceAllAux (s.data.length + 1) s.data pat.data rep.data)

/-- Worker for goSplit: cur is the segment accumulated so far. -/
def goSplitAux : Nat → List Char → List Char → List Char → List String
  | 0, rest, _, cur => [String.mk (cur ++ rest)]
  | _ + 1, [], _, cur => [String.mk cur]
  | fuel + 1, c :: cs, sep, cur =>
    match stripPfx? sep (c :: cs) with
    | some rest => String.mk cur :: goSplitAux fuel rest sep []
    | none => goSplitAux fuel cs sep (cur ++ [c])

/-- Embedding of strings.Split(s, sep) for a non-empty separator (the source
only splits on ","): splitting the empty string yields one empty segment, and
in general n separator occurrences yield n+1 segments. -/
def goSplit (s sep : String) : List String :=
  goSplitAux (s.data.length + 1) s.data sep.data []

/-- The string needle occurs inside the string hay.  Used to state that an
error message names the offending environment variable. -/
def strContains (needle hay : String) : Prop :=
  needle.data <:+: hay.data

instance (n h : String) : Decidable (strContains n h) :=
  inferInstanceAs (Decidable (n.data <:+: h.data))

/-- Embedding of strconv.ParseBool: exactly the twelve accepted literals. -/
def goParseBool (s : String) : Option Bool :=
  if s = "1" ∨ s = "t" ∨ s = "T" ∨ s = "true" ∨ s = "TRUE" ∨ s = "True" then some true
  else if s = "0" ∨ s = "f" ∨ s = "F" ∨ s = "false" ∨ s = "FALSE" ∨ s = "False" then some false
  else none

/-- Accumulate decimal digits; none on any non-digit character. -/
def decNatAux : List Char → Nat → Option Nat
  | [], acc => some acc
  | c :: rest, acc =>
    match digitVal? c with
    | some d => decNatAux rest (acc * 10 + d)
    | none => none

/-- Value of a non-empty all-digit string, none otherwise. -/
def decNat? : List Char → Option Nat
  | [] => none
  | cs => decNatAux cs 0

/-- Embedding of strconv.ParseInt(s, 10, 64): optional sign, decimal digits,
result within the signed 64-bit range. -/
def goParseInt (s : String) : Option Int :=
  match s.data with
  | '+' :: ds =>
    match decNat? ds with
    | some n => if n ≤ 2 ^ 63 - 1 then some (n : Int) else none
    | none => none
  | '-' :: ds =>
    match decNat? ds with
    | some n => if n ≤ 2 ^ 63 then some (-(n : Int)) else none
    | none => none
  | ds =>
    match decNat? ds with
    | some n => if n ≤ 2 ^ 63 - 1 then some (n : Int) else none
    | none => none

/-- Embedding of strconv.ParseUint(s, 10, 64): no sign permitted, decimal
digits, result within the unsigned 64-bit range. -/
def goParseUint (s : String) : Option Nat :=
  match s.data with
  | '+' :: _ => none
  | '-' :: _ => none
  | ds =>
    match decNat? ds with
    | some n => if n ≤ 2 ^ 64 - 1 then some n else none
    | none => none

/-- Worker of the leading-integer scanner of time.ParseDuration, with the
same overflow guards as Go (values are unsigned 64-bit there). -/
def leadingIntAux : List Char → Nat → Option (Nat × List Char)
  | [], x => some (x, [])
  | c :: rest, x =>
    match digitVal? c with
    | none => some (x, c :: rest)
    | some d =>
      if x > 2 ^ 63 / 10 then none
      else
        let x2 := x * 10 + d
        if x2 > 2 ^ 63 then none else leadingIntAux rest x2

/-- Embedding of time.leadingInt: consume leading decimal digits. -/
def leadingInt (cs : List Char) : Option (Nat × List Char) := leadingIntAux cs 0

/-- Worker of the fraction scanner of time.ParseDuration: returns the digits
read as an integer together with the matching power-of-ten scale; once the
value would overflow, further digits are consumed but ignored, as in Go. -/
def leadingFracAux : List Char → Nat → Nat → Bool → (Nat × Nat × List Char)
  | [], x, scale, _ => (x, scale, [])
  | c :: rest, x, scale, ovf =>
    match digitVal? c with
    | none => (x, scale, c :: rest)
    | some d =>
      if ovf then leadingFracAux rest x scale true
      else if x > (2 ^ 63 - 1) / 10 then leadingFracAux rest x scale true
      else
        let y := x * 10 + d
        if y > 2 ^ 63 then leadingFracAux rest x scale true
        else leadingFracAux rest y (scale * 10) false

/-- Embedding of time.leadingFraction. -/
def leadingFrac (cs : List Char) : Nat × Nat × List Char := leadingFracAux cs 0 1 false

/-- Split off the unit name: the longest leading run of characters that are
neither digits nor a decimal point, exactly as the unit scan inside
time.ParseDuration. -/
def unitSpan : List Char → List Char × List Char
  | [] => ([], [])
  | c :: rest =>
    if c = '.' ∨ (digitVal? c).isSome then ([], c :: rest)
    else
      let (u, r) := unitSpan rest
      (c :: u, r)

/-- Nanoseconds per unit, the unitMap of time.ParseDuration. -/
def durUnits : List (String × Nat) :=
  [("ns", 1), ("us", 1000), ("µs", 1000), ("μs", 1000), ("ms", 1000000),
   ("s", 1000000000), ("m", 60000000000), ("h", 3600000000000)]

/-- Main loop of time.ParseDuration over the sign-stripped input, d being the
nanoseconds accumulated so far.  Go computes the fractional contribution with
float64 arithmetic; the model uses exact integer division f * unit / scale,
which agrees except for rounding of fractional digits.  The fuel argument
bounds the recursion and is always large enough at the call site. -/
def durLoop : Nat → List Char → Nat → Option Nat
  | _, [], d => some d
  | 0, _ :: _, _ => none
  | fuel + 1, c :: cs, d =>
    if c = '.' ∨ (digitVal? c).isSome then
      match leadingInt (c :: cs) with
      | none => none
      | some (v, s1) =>
        let pre := s1.length != (c :: cs).length
        let (f, scale, s2, post) :=
          match s1 with
          | '.' :: s1t =>
            let (f, sc, s2) := leadingFrac s1t
            (f, sc, s2, s2.length != s1t.length)
          | _ => (0, 1, s1, false)
        if !pre && !post then none
        else
          let (u, s3) := unitSpan s2
          if u = [] then none
          else
            match durUnits.lookup (String.mk u) with
            | none => none
            | some unit =>
              if v > 2 ^ 63 / unit then none
              else
                let v2 := v * unit
                let v3 := if f > 0 then v2 + f * unit / scale else v2
                if f > 0 ∧ v3 > 2 ^ 63 then none
                else
                  let d2 := d + v3
                  if d2 > 2 ^ 63 then none
                  else durLoop fuel s3 d2
    else none

/-- Embedding of time.ParseDuration: optional sign, then one or more
number-unit groups, with "0" as the only unitless form; the result is a
signed 64-bit count of nanoseconds. -/
def goParseDuration (s : String) : Option Int :=
  match s.data with
  | [] => none
  | cs =>
    let (neg, cs2) :=
      match cs with
      | '-' :: rest => (true, rest)
      | '+' :: rest => (false, rest)
      | _ => (false, cs)
    if cs2 = ['0'] then some 0
    else if cs2 = [] then none
    else
      match durLoop (cs2.length + 1) cs2 0 with
      | none => none
      | some d =>
        if neg then some (-(d : Int))
        else if d > 2 ^ 63 - 1 then none
        else some (d : Int)

/-- Every character is a decimal digit (true for the empty list). -/
def isDigits (cs : List Char) : Bool := cs.all (fun c => (digitVal? c).isSome)

/-- Split a float literal at the first exponent marker e or E. -/
def splitExp : List Char → List Char × Option (List Char)
  | [] => ([], none)
  | c :: rest =>
    if c = 'e' ∨ c = 'E' then ([], some rest)
    else
      let (m, e) := splitExp rest
      (c :: m, e)

/-- Exponent part of a float literal: optional sign then at least one digit. -/
def expOk : List Char → Bool
  | [] => false
  | c :: rest =>
    if c = '+' ∨ c = '-' then (!rest.isEmpty) && isDigits rest
    else isDigits (c :: rest)

/-- Mantissa of a decimal float literal: digits with at most one decimal
point and at least one digit overall. -/
def decMantOk (cs : List Char) : Bool :=
  let (intPart, rest) := cs.span (fun c => (digitVal? c).isSome)
  match rest with
  | [] => !intPart.isEmpty
  | c :: frac => c = '.' && isDigits frac && (!intPart.isEmpty || !frac.isEmpty)

/-- Syntactic acceptance of strconv.ParseFloat(s, 64): decimal literals with
optional sign and exponent, plus the case-insensitive specials inf, infinity
and nan.  Floating-point values themselves are outside the model (no claim
concerns a float field), so a successfully parsed float field stores the
accepted literal; hex float literals and digit underscores are not modelled. -/
def goParseFloatOk (s : String) : Bool :=
  let cs := s.data
  let cs2 :=
    match cs with
    | '+' :: rest => rest
    | '-' :: rest => rest
    | _ => cs
  let low := String.mk (cs2.map Char.toLower)
  if low = "inf" ∨ low = "infinity" ∨ low = "nan" then true
  else
    let (mant, ex) := splitExp cs2
    decMantOk mant &&
      (match ex with
       | none => true
       | some e => expOk e)

/-- JSON insignificant whitespace. -/
def isJsonWs (c : Char) : Bool :=
  c = ' ' || c = '\t' || c = '\n' || c = '\r'

/-- Drop leading JSON whitespace. -/
def skipWs : List Char → List Char
  | [] => []
  | c :: rest => if isJsonWs c then skipWs rest else c :: rest

/-- Value of one hexadecimal digit. -/
def hexVal? (c : Char) : Option Nat :=
  if ('0' ≤ c ∧ c ≤ '9') then some (c.toNat - '0'.toNat)
  else if ('a' ≤ c ∧ c ≤ 'f') then some (c.toNat - 'a'.toNat + 10)
  else if ('A' ≤ c ∧ c ≤ 'F') then some (c.toNat - 'A'.toNat + 10)
  else none

/-- Single-character JSON escapes. -/
def unescape? (e : Char) : Option Char :=
  if e = '"' then some '"'
  else if e = '\\' then some '\\'
  else if e = '/' then some '/'
  else if e = 'b' then some (Char.ofNat 8)
  else if e = 'f' then some (Char.ofNat 12)
  else if e = 'n' then some '\n'
  else if e = 'r' then some '\r'
  else if e = 't' then some '\t'
  else none

/-- Body of a JSON string literal, after the opening quote: returns the
decoded characters and the input after the closing quote.  Each \u escape is
decoded independently (Go additionally combines surrogate pairs); unescaped
control characters are rejected as in Go. -/
def parseStrBody : List Char → Option (List Char × List Char)
  | [] => none
  | '"' :: rest => some ([], rest)
  | '\\' :: 'u' :: a :: b :: c :: d :: rest =>
    match hexVal? a, hexVal? b, hexVal? c, hexVal? d with
    | some ha, some hb, some hc, some hd =>
      match parseStrBody rest with
      | some (s, r) => some (Char.ofNat (((ha * 16 + hb) * 16 + hc) * 16 + hd) :: s, r)
      | none => none
    | _, _, _, _ => none
  | '\\' :: e :: rest =>
    match unescape? e with
    | some u =>
      match parseStrBody rest with
      | some (s, r) => some (u :: s, r)
      | none => none
    | none => none
  | c :: rest =>
    if c.toNat < 32 then none
    else
      match parseStrBody rest with
      | some (s, r) => some (c :: s, r)
      | none => none

/-- Insert a key/value pair, replacing an existing binding of the same key:
Go map assignment, so a duplicate key in the JSON document keeps the last
value. -/
def insertKV : List (String × String) → String → String → List (String × String)
  | [], k, v => [(k, v)]
  | (k2, v2) :: rest, k, v =>
    if k2 = k then (k, v) :: rest else (k2, v2) :: insertKV rest k v

/-- Opening brace character. -/
def lbrace : Char := Char.ofNat 123

/-- Closing brace character. -/
def rbrace : Char := Char.ofNat 125

/-- Members of a JSON object after the opening brace, for an object whose
keys and values must both be JSON strings (the target Go type is a map of
string to string, so any non-string member value is a decode error).  The
fuel argument bounds the recursion and is always large enough at the call
site. -/
def parseMembers : Nat → List Char → List (String × String) →
    Option (List (String × String) × List Char)
  | 0, _, _ => none
  | fuel + 1, cs, acc =>
    match skipWs cs with
    | '"' :: rest =>
      match parseStrBody rest with
      | none => none
      | some (kcs, rest1) =>
        match skipWs rest1 with
        | ':' :: rest2 =>
          match skipWs rest2 with
          | '"' :: rest3 =>
            match parseStrBody rest3 with
            | none => none
            | some (vcs, rest4) =>
              let acc2 := insertKV acc (String.mk kcs) (String.mk vcs)
              match skipWs rest4 with
              | ',' :: rest5 => parseMembers fuel rest5 acc2
              | d :: rest5 => if d = rbrace then some (acc2, rest5) else none
              | [] => none
          | _ => none
        | _ => none
    | _ => none

/-- Embedding of json.Unmarshal(sv, m) for m a map of string to string: the
whole input must be one JSON value, either an object with string values or
the literal null (which leaves the freshly made empty map unchanged). -/
def parseJsonStrMap (s : String) : Option (List (String × String)) :=
  match skipWs s.data with
  | 'n' :: 'u' :: 'l' :: 'l' :: rest =>
    if skipWs rest = [] then some [] else none
  | c :: rest =>
    if c = lbrace then
      let cs2 := skipWs rest
      match cs2 with
      | [] => none
      | c2 :: rest2 =>
        if c2 = rbrace then (if skipWs rest2 = [] then some [] else none)
        else
          match parseMembers (cs2.length + 1) cs2 [] with
          | some (m, rest3) => if skipWs rest3 = [] then some m else none
          | none => none
    else none
  | [] => none

/-- Reflective metadata of one struct field as read by parseEnvs: the Go
field name, the json struct tag, the raw value of the read-only struct tag,
and the name of the declared field type (used to recognize time.Duration). -/
structure FieldMeta where
  name : String
  jsonTag : String
  readOnlyTag : String
  typeName : String
deriving DecidableEq

/-- Value of one struct field, one constructor per reflect.Kind group that
the switch in parseEnvs distinguishes.  float stores the accepted literal
because floating-point values are outside the model; other covers every kind
the switch leaves untouched (pointers, channels, structs, ...). -/
inductive FieldVal where
  | str (s : String)
  | boolean (b : Bool)
  | int64 (i : Int)
  | uint64 (u : Nat)
  | float (r : String)
  | strSlice (xs : List String)
  | strMap (m : List (String × String))
  | other
deriving DecidableEq

/-- One struct field: metadata plus current value. -/
structure Field where
  meta : FieldMeta
  val : FieldVal
deriving DecidableEq

/-- Process environment, as seen through os.Getenv: an unset variable is
indistinguishable from one set to the empty string. -/
def Env := String → String

/-- Key derivation of parseEnvs: strip ",omitempty" from the json tag,
replace "-" by "_", and upper-case. -/
def deriveKey (jv : String) : String :=
  goToUpper (goReplace (goReplace jv ",omitempty" "") "-" "_")

/-- Name of the environment variable matched against a field. -/
def envVarName (pfx : String) (f : Field) : String :=
  pfx ++ deriveKey f.meta.jsonTag

/-- Field names permitted for map-kind overrides, the whitelist of the
reflect.Map case of parseEnvs. -/
def mapFieldAllowed (n : String) : Bool :=
  n = "Tags" || n = "NodeSelector" || n = "DeploymentNodeSelector" ||
    n = "DeploymentNodeSelector2048"

/-- Error text for an attempt to set a read-only field (Go format string:
quoting dropped, content otherwise as in the source). -/
def readOnlyErrMsg (envName sv : String) : String :=
  envName ++ "=" ++ sv ++ " is read-only field; should not be set"

/-- Error text for a value that fails type coercion (Go format string:
quoting and the wrapped library error dropped, the offending value, field
name and environment variable key kept). -/
def parseFailMsg (sv fieldName envName : String) : String :=
  "failed to parse " ++ sv ++ " (field name " ++ fieldName ++
    ", environmental variable key " ++ envName ++ ")"

/-- Error text for a map-kind field outside the whitelist. -/
def mapNotSupportedMsg (fieldName : String) : String :=
  "field " ++ fieldName ++ " not supported for reflect.Map"

/-- Application of one non-empty environment value sv to one field: the body
of the loop of parseEnvs after the variable lookup.  Returns the field after
the step (Go mutates it in place) and the error, if any.  In the whitelisted
map case the field is first overwritten with an empty map, then the parsed
map is stored; on a parse failure the empty map remains, as in the source. -/
def applyEnvVal (envName sv : String) (fld : Field) : Field × Option String :=
  if sv = "" then (fld, none)
  else if fld.meta.readOnlyTag = "true" then
    (fld, some (readOnlyErrMsg envName sv))
  else
    match fld.val with
    | .str _ => ({ fld with val := .str sv }, none)
    | .boolean _ =>
      match goParseBool sv with
      | some b => ({ fld with val := .boolean b }, none)
      | none => (fld, some (parseFailMsg sv fld.meta.name envName))
    | .int64 _ =>
      if fld.meta.typeName = "Duration" then
        match goParseDuration sv with
        | some iv => ({ fld with val := .int64 iv }, none)
        | none => (fld, some (parseFailMsg sv fld.meta.name envName))
      else
        match goParseInt sv with
        | some iv => ({ fld with val := .int64 iv }, none)
        | none => (fld, some (parseFailMsg sv fld.meta.name envName))
    | .uint64 _ =>
      match goParseUint sv with
      | some uv => ({ fld with val := .uint64 uv }, none)
      | none => (fld, some (parseFailMsg sv fld.meta.name envName))
    | .float _ =>
      if goParseFloatOk sv then ({ fld with val := .float sv }, none)
      else (fld, some (parseFailMsg sv fld.meta.name envName))
    | .strSlice _ =>
      let ss := goSplit sv ","
      if ss.length < 1 then (fld, none)
      else ({ fld with val := .strSlice ss }, none)
    | .strMap _ =>
      if mapFieldAllowed fld.meta.name then
        match parseJsonStrMap sv with
        | some mm => ({ fld with val := .strMap mm }, none)
        | none => ({ fld with val := .strMap [] }, some (parseFailMsg sv fld.meta.name envName))
      else (fld, some (mapNotSupportedMsg fld.meta.name))
    | .other => (fld, none)

/-- One iteration of the loop of parseEnvs: a field whose json tag is empty
is skipped before any environment lookup; otherwise the variable named by
the prefix and the derived key is read and applied. -/
def processField (pfx : String) (env : Env) (fld : Field) : Field × Option String :=
  if fld.meta.jsonTag = "" then (fld, none)
  else applyEnvVal (envVarName pfx fld) (env (envVarName pfx fld)) fld

/-- The override pass parseEnvs over one record: fields are processed in
declaration order; on the first error the pass stops, fields already
processed keep their new values and the remaining fields are untouched (the
Go function mutates the record in place and returns the error; the returned
list here is the state of the record after the pass). -/
def parseEnvs (pfx : String) (env : Env) : List Field → List Field × Option String
  | [] => ([], none)
  | fld :: rest =>
    match processField pfx env fld with
    | (fld2, some e) => (fld2 :: rest, some e)
    | (fld2, none) =>
      let r := parseEnvs pfx env rest
      (fld2 :: r.1, r.2)

/-- Root Config record of the source, restricted to its serialization-tagged
root fields.  The mutex and the stop channel carry the json tag "-" and are
never serialized; the addon slots are pointers to config types whose sources
are not provided, so they are modelled as one opaque component addOnDocs
holding the addon sub-documents keyed by their json keys (they ride through
marshalling unchanged). -/
structure ConfigGo where
  Prompt : Bool
  ClusterName : String
  ConfigPath : String
  LogColor : Bool
  LogColorOverride : String
  LogLevel : String
  LogOutputs : List String
  KubectlDownloadURL : String
  KubectlPath : String
  KubeconfigPath : String
  KubeconfigContext : String
  MinimumNodes : Int
  TotalNodes : Int
  addOnDocs : List (String × String)
deriving DecidableEq

/-- Modelled from the spec: a persisted YAML document for the root schema.
The strict decoder (sigs.k8s.io/yaml with DisallowUnknownFields) is a
library outside the provided source, so a document is modelled as the schema
fields together with the list of keys present in the file that the schema
does not recognize. -/
structure ConfigDoc where
  prompt : Bool
  clusterName : String
  configPath : String
  logColor : Bool
  logColorOverride : String
  logLevel : String
  logOutputs : List String
  kubectlDownloadURL : String
  kubectlPath : String
  kubeconfigPath : String
  kubeconfigContext : String
  minimumNodes : Int
  totalNodes : Int
  addOnDocs : List (String × String)
  unknownKeys : List String
deriving DecidableEq

/-- Modelled from the spec: yaml.Marshal of the root config writes exactly
the serialization-tagged fields; a marshalled document has no unknown keys. -/
def marshalCfg (c : ConfigGo) : ConfigDoc :=
  { prompt := c.Prompt
    clusterName := c.ClusterName
    configPath := c.ConfigPath
    logColor := c.LogColor
    logColorOverride := c.LogColorOverride
    logLevel := c.LogLevel
    logOutputs := c.LogOutputs
    kubectlDownloadURL := c.KubectlDownloadURL
    kubectlPath := c.KubectlPath
    kubeconfigPath := c.KubeconfigPath
    kubeconfigContext := c.KubeconfigContext
    minimumNodes := c.MinimumNodes
    totalNodes := c.TotalNodes
    addOnDocs := c.addOnDocs
    unknownKeys := [] }

/-- Modelled from the spec: yaml.Unmarshal with yaml.DisallowUnknownFields
fails exactly when the document holds a key the schema does not recognize,
and otherwise yields the decoded record. -/
def unmarshalStrict (d : ConfigDoc) : Except String ConfigGo :=
  if d.unknownKeys = [] then
    .ok
      { Prompt := d.prompt
        ClusterName := d.clusterName
        ConfigPath := d.configPath
        LogColor := d.logColor
        LogColorOverride := d.logColorOverride
        LogLevel := d.logLevel
        LogOutputs := d.logOutputs
        KubectlDownloadURL := d.kubectlDownloadURL
        KubectlPath := d.kubectlPath
        KubeconfigPath := d.kubeconfigPath
        KubeconfigContext := d.kubeconfigContext
        MinimumNodes := d.minimumNodes
        TotalNodes := d.totalNodes
        addOnDocs := d.addOnDocs }
  else .error ("error unmarshaling JSON: unknown field " ++
    String.intercalate ", " d.unknownKeys)

/-- File system state: the documents on disk, newest write first. -/
abbrev FS := List (String × ConfigDoc)

/-- ioutil.ReadFile: the most recent document written at the path. -/
def readFile (fs : FS) (p : String) : Option ConfigDoc :=
  match fs with
  | [] => none
  | (q, d) :: rest => if q = p then some d else readFile rest p

/-- ioutil.WriteFile: record the document at the path. -/
def writeFile (fs : FS) (p : String) (d : ConfigDoc) : FS := (p, d) :: fs

/-- filepath.IsAbs on unix: the path starts with a slash. -/
def isAbs (p : String) : Bool :=
  p.data.head? == some '/'

/-- filepath.Abs relative to the working directory cwd; lexical cleaning of
the result, which Go also performs, is not modelled (no claim depends on
it). -/
def absPath (cwd p : String) : String :=
  if isAbs p then p else cwd ++ "/" ++ p

/-- First path resolution step of unsafeSync: a non-empty relative
ConfigPath is resolved against cwd. -/
def resolveConfigPath (cwd : String) (c : ConfigGo) : ConfigGo :=
  if c.ConfigPath ≠ "" ∧ ¬ isAbs c.ConfigPath then
    { c with ConfigPath := absPath cwd c.ConfigPath }
  else c

/-- Second path resolution step of unsafeSync: a non-empty relative
KubeconfigPath is resolved against cwd. -/
def resolveKubeconfigPath (cwd : String) (c : ConfigGo) : ConfigGo :=
  if c.KubeconfigPath ≠ "" ∧ ¬ isAbs c.KubeconfigPath then
    { c with KubeconfigPath := absPath cwd c.KubeconfigPath }
  else c

/-- Both path resolution steps of unsafeSync, in source order. -/
def resolvePaths (cwd : String) (c : ConfigGo) : ConfigGo :=
  resolveKubeconfigPath cwd (resolveConfigPath cwd c)

/-- Embedding of unsafeSync: reject an empty ConfigPath, resolve the two
paths, marshal and write.  writable says which paths the file system accepts
(the WriteFile error path); yaml.Marshal of this record cannot fail.  The
record is returned in its state after the call (Go mutates it in place, so
the path resolutions survive even when the write fails). -/
def syncUnlocked (cwd : String) (writable : String → Bool) (fs : FS) (c : ConfigGo) :
    FS × ConfigGo × Option String :=
  if c.ConfigPath = "" then (fs, c, some "empty config path")
  else if writable (resolvePaths cwd c).ConfigPath then
    (writeFile fs (resolvePaths cwd c).ConfigPath (marshalCfg (resolvePaths cwd c)),
      resolvePaths cwd c, none)
  else (fs, resolvePaths cwd c,
    some ("failed to write file " ++ (resolvePaths cwd c).ConfigPath))

/-- Embedding of Sync: takes the lock and runs unsafeSync; the lock is
irrelevant to the sequential model. -/
def Sync (cwd : String) (writable : String → Bool) (fs : FS) (c : ConfigGo) :
    FS × ConfigGo × Option String :=
  syncUnlocked cwd writable fs c

/-- Embedding of Load: read the file, decode strictly, point ConfigPath at
the file just read, resolve it to an absolute path, then re-save best-effort
(a sync failure is only warned about, so the config is returned with
whatever path resolutions the failed sync already applied). -/
def Load (cwd : String) (writable : String → Bool) (fs : FS) (p : String) :
    Except String ConfigGo × FS :=
  match readFile fs p with
  | none => (.error ("failed to read " ++ p), fs)
  | some d =>
    match unmarshalStrict d with
    | .error e => (.error e, fs)
    | .ok c0 =>
      let c1 := if c0.ConfigPath ≠ p then { c0 with ConfigPath := p } else c0
      let c2 := { c1 with ConfigPath := absPath cwd p }
      let r := syncUnlocked cwd writable fs c2
      (.ok r.2.1, r.1)

/-- The field list that reflection yields for the root Config record, with
the struct tags of the source.  The mutex and the stop channel carry the
json tag "-" (not the empty tag), and the addon slots are pointer fields,
which the kind switch of parseEnvs leaves untouched. -/
def configFields (c : ConfigGo) : List Field :=
  [⟨⟨"mu", "-", "", ""⟩, .other⟩,
   ⟨⟨"Stopc", "-", "", ""⟩, .other⟩,
   ⟨⟨"Prompt", "prompt", "", "bool"⟩, .boolean c.Prompt⟩,
   ⟨⟨"ClusterName", "cluster_name", "", "string"⟩, .str c.ClusterName⟩,
   ⟨⟨"ConfigPath", "config_path", "", "string"⟩, .str c.ConfigPath⟩,
   ⟨⟨"LogColor", "log_color", "", "bool"⟩, .boolean c.LogColor⟩,
   ⟨⟨"LogColorOverride", "log_color_override", "", "string"⟩, .str c.LogColorOverride⟩,
   ⟨⟨"LogLevel", "log-level", "", "string"⟩, .str c.LogLevel⟩,
   ⟨⟨"LogOutputs", "log-outputs", "", ""⟩, .strSlice c.LogOutputs⟩,
   ⟨⟨"KubectlDownloadURL", "kubectl-download-url", "", "string"⟩, .str c.KubectlDownloadURL⟩,
   ⟨⟨"KubectlPath", "kubectl_path", "", "string"⟩, .str c.KubectlPath⟩,
   ⟨⟨"KubeconfigPath", "kubeconfig_path", "", "string"⟩, .str c.KubeconfigPath⟩,
   ⟨⟨"KubeconfigContext", "kubeconfig_context", "", "string"⟩, .str c.KubeconfigContext⟩,
   ⟨⟨"MinimumNodes", "minimum_nodes", "", "int"⟩, .int64 c.MinimumNodes⟩,
   ⟨⟨"TotalNodes", "total_nodes", "true", "int"⟩, .int64 c.TotalNodes⟩,
   ⟨⟨"AddOnCloudwatchAgent", "add_on_cloudwatch_agent", "", ""⟩, .other⟩,
   ⟨⟨"AddOnMetricsServer", "add_on_metrics_server", "", ""⟩, .other⟩,
   ⟨⟨"AddOnFluentBit", "add_on_fluent_bit", "", ""⟩, .other⟩,
   ⟨⟨"AddOnKubernetesDashboard", "add_on_kubernetes_dashboard", "", ""⟩, .other⟩,
   ⟨⟨"AddOnNLBHelloWorld", "add_on_nlb_hello_world", "", ""⟩, .other⟩,
   ⟨⟨"AddOnJobsPi", "add_on_jobs_pi", "", ""⟩, .other⟩,
   ⟨⟨"AddOnJobsEcho", "add_on_jobs_echo", "", ""⟩, .other⟩,
   ⟨⟨"AddOnCronJobsEcho", "add_on_cron_jobs_echo", "", ""⟩, .other⟩]

/-- Environment-variable prefix of the root record (ENV_PREFIX). -/
def envPfx : String := "K8S_TESTER_"

theorem parseEnvs_cons_err (pfx : String) (env : Env) (f f2 : Field) (e : String)
    (rest : List Field) (h : processField pfx env f = (f2, some e)) :
    parseEnvs pfx env (f :: rest) = (f2 :: rest, some e) := by
  simp [parseEnvs, h]

theorem parseEnvs_cons_ok (pfx : String) (env : Env) (f f2 : Field)
    (rest : List Field) (h : processField pfx env f = (f2, none)) :
    parseEnvs pfx env (f :: rest) =
      (f2 :: (parseEnvs pfx env rest).1, (parseEnvs pfx env rest).2) := by
  simp [parseEnvs, h]

theorem parseEnvs_append_of_ok (pfx : String) (env : Env) (pre rest : List Field)
    (h : (parseEnvs pfx env pre).2 = none) :
    parseEnvs pfx env (pre ++ rest) =
      ((parseEnvs pfx env pre).1 ++ (parseEnvs pfx env rest).1,
        (parseEnvs pfx env rest).2) := by
  induction pre with
  | nil => simp [parseEnvs]
  | cons g pre ih =>
    rcases hp : processField pfx env g with ⟨g2, e⟩
    cases e with
    | some msg =>
      rw [parseEnvs_cons_err _ _ _ _ _ _ hp] at h
      simp at h
    | none =>
      rw [parseEnvs_cons_ok _ _ _ _ _ hp] at h
      rw [List.cons_append, parseEnvs_cons_ok _ _ _ _ _ hp,
        parseEnvs_cons_ok _ _ _ _ _ hp, ih h]
      simp

theorem getElem?_append_len (f : Field) :
    ∀ (pre post : List Field), (pre ++ f :: post)[pre.length]? = some f := by
  intro pre
  induction pre with
  | nil => intro post; simp
  | cons g pre ih => intro post; simpa using ih post

theorem parseEnvs_skip_preserve (pfx : String) (env : Env) (f : Field)
    (hf : processField pfx env f = (f, none)) :
    ∀ pre post : List Field,
      (parseEnvs pfx env (pre ++ f :: post)).1[pre.length]? = some f := by
  intro pre
  induction pre with
  | nil =>
    intro post
    rw [List.nil_append, parseEnvs_cons_ok _ _ _ _ _ hf]
    simp
  | cons g pre ih =>
    intro post
    rcases hp : processField pfx env g with ⟨g2, e⟩
    cases e with
    | some msg =>
      rw [List.cons_append, parseEnvs_cons_err _ _ _ _ _ _ hp]
      simpa using getElem?_append_len f pre post
    | none =>
      rw [List.cons_append, parseEnvs_cons_ok _ _ _ _ _ hp]
      simpa using ih post

theorem contains_readOnly (envName sv : String) :
    strContains envName (readOnlyErrMsg envName sv) := by
  refine ⟨[], ("=" ++ sv ++ " is read-only field; should not be set").data, ?_⟩
  simp [readOnlyErrMsg, String.data_append]

theorem contains_parseFail (sv n envName : String) :
    strContains envName (parseFailMsg sv n envName) := by
  refine ⟨("failed to parse " ++ sv ++ " (field name " ++ n ++
    ", environmental variable key ").data, ")".data, ?_⟩
  simp [parseFailMsg, String.data_append]

/-- Claim C1: for every configuration field carrying the read-only marker
(tag read-only with value true), if the matching environment variable
(prefix plus derived field key) is set to any non-empty string, then the
override pass fails with an error naming that environment variable, and the
read-only field itself is left unmodified (it reappears unchanged in the
record, the error being raised before any write to it). -/
theorem claim_C1 (pfx : String) (env : Env) (pre post : List Field) (f : Field)
    (hpre : (parseEnvs pfx env pre).2 = none)
    (htag : f.meta.jsonTag ≠ "")
    (hro : f.meta.readOnlyTag = "true")
    (hset : env (envVarName pfx f) ≠ "") :
    parseEnvs pfx env (pre ++ f :: post)
      = ((parseEnvs pfx env pre).1 ++ f :: post,
         some (readOnlyErrMsg (envVarName pfx f) (env (envVarName pfx f))))
    ∧ strContains (envVarName pfx f)
        (readOnlyErrMsg (envVarName pfx f) (env (envVarName pfx f))) := by
  have hpf : processField pfx env f
      = (f, some (readOnlyErrMsg (envVarName pfx f) (env (envVarName pfx f)))) := by
    simp [processField, htag, applyEnvVal, hset, hro]
  refine ⟨?_, contains_readOnly _ _⟩
  rw [parseEnvs_append_of_ok _ _ _ _ hpre, parseEnvs_cons_err _ _ _ _ _ _ hpf]

/-- Environment for the C1 witness: only the read-only total-nodes variable
is set. -/
def roEnv : Env := fun n => if n = "K8S_TESTER_TOTAL_NODES" then "10" else ""

/-- The TotalNodes field of the root Config, the one read-only field of the
record. -/
def roField : Field := ⟨⟨"TotalNodes", "total_nodes", "true", "int"⟩, .int64 0⟩

theorem claim_C1_witness :
    parseEnvs "K8S_TESTER_" roEnv [roField]
      = ([roField], some (readOnlyErrMsg (envVarName "K8S_TESTER_" roField)
          (roEnv (envVarName "K8S_TESTER_" roField))))
    ∧ strContains (envVarName "K8S_TESTER_" roField)
        (readOnlyErrMsg (envVarName "K8S_TESTER_" roField)
          (roEnv (envVarName "K8S_TESTER_" roField))) :=
  claim_C1 "K8S_TESTER_" roEnv [] [] roField rfl (by decide) rfl (by decide)

/-- Claim C3: for every field of any configuration record, if the matching
environment variable is unset or set to the empty string (os.Getenv cannot
distinguish the two), the override pass leaves that field exactly at its
prior value and produces no error for it: the processing step of the field
is an error-free no-op, and the field reappears unchanged at its position in
the record returned by the pass. -/
theorem claim_C3 (pfx : String) (env : Env) (f : Field) (pre post : List Field)
    (hempty : env (envVarName pfx f) = "") :
    processField pfx env f = (f, none)
    ∧ (parseEnvs pfx env (pre ++ f :: post)).1[pre.length]? = some f := by
  have hpf : processField pfx env f = (f, none) := by
    by_cases ht : f.meta.jsonTag = ""
    · simp [processField, ht]
    · simp [processField, ht, applyEnvVal, hempty]
  exact ⟨hpf, parseEnvs_skip_preserve _ _ _ hpf pre post⟩

/-- Empty environment for the C3 witness. -/
def emptyEnv : Env := fun _ => ""

/-- ClusterName field of the root Config, used by several witnesses. -/
def clusterNameField : Field :=
  ⟨⟨"ClusterName", "cluster_name", "", "string"⟩, .str "k8s-default"⟩

/-- Prompt field of the root Config, used by several witnesses. -/
def promptField : Field := ⟨⟨"Prompt", "prompt", "", "bool"⟩, .boolean true⟩

theorem claim_C3_witness :
    processField "K8S_TESTER_" emptyEnv clusterNameField = (clusterNameField, none)
    ∧ (parseEnvs "K8S_TESTER_" emptyEnv
        ([promptField] ++ clusterNameField :: [])).1[[promptField].length]?
      = some clusterNameField :=
  claim_C3 "K8S_TESTER_" emptyEnv clusterNameField [promptField] [] rfl

/-- Claim C4: the override pass considers a field only if its json tag is
non-empty (an empty-tag field is skipped with no error before any lookup),
the environment variable name it looks up equals the prefix concatenated
with the tag after stripping ",omitempty", replacing "-" by "_" and
upper-casing, and the outcome for a field depends on the environment only
through that one variable, so an empty-tag field is never matched against
any environment variable. -/
theorem claim_C4 (pfx : String) (env env2 : Env) (f : Field) :
    (f.meta.jsonTag = "" →
      processField pfx env f = (f, none) ∧ processField pfx env2 f = (f, none))
    ∧ envVarName pfx f
      = pfx ++ goToUpper (goReplace (goReplace f.meta.jsonTag ",omitempty" "") "-" "_")
    ∧ (env (envVarName pfx f) = env2 (envVarName pfx f) →
        processField pfx env f = processField pfx env2 f) := by
  refine ⟨fun ht => ⟨by simp [processField, ht], by simp [processField, ht]⟩, rfl, ?_⟩
  intro h
  by_cases ht : f.meta.jsonTag = ""
  · simp [processField, ht]
  · unfold processField
    rw [if_neg ht, if_neg ht, h]

/-- Environment for the C4 witness, agreeing with c4EnvB on the log-level
variable and nowhere else. -/
def c4EnvA : Env := fun n => if n = "K8S_TESTER_LOG_LEVEL" then "debug" else "a"

/-- Second environment for the C4 witness. -/
def c4EnvB : Env := fun n => if n = "K8S_TESTER_LOG_LEVEL" then "debug" else "b"

/-- LogLevel field of the root Config: its tag log-level exercises the dash
replacement in the key derivation. -/
def logLevelField : Field := ⟨⟨"LogLevel", "log-level", "", "string"⟩, .str "info"⟩

/-- A field with an empty json tag, as skipped by the pass. -/
def internalField : Field := ⟨⟨"internalState", "", "", ""⟩, .other⟩

theorem claim_C4_witness :
    processField "K8S_TESTER_" c4EnvA internalField = (internalField, none)
    ∧ envVarName "K8S_TESTER_" logLevelField = "K8S_TESTER_LOG_LEVEL"
    ∧ processField "K8S_TESTER_" c4EnvA logLevelField
      = processField "K8S_TESTER_" c4EnvB logLevelField :=
  ⟨((claim_C4 "K8S_TESTER_" c4EnvA c4EnvB internalField).1 rfl).1,
   (claim_C4 "K8S_TESTER_" c4EnvA c4EnvB logLevelField).2.1,
   (claim_C4 "K8S_TESTER_" c4EnvA c4EnvB logLevelField).2.2 (by decide)⟩

theorem processField_eq (pfx : String) (env : Env) (f : Field)
    (htag : f.meta.jsonTag ≠ "") :
    processField pfx env f
      = applyEnvVal (envVarName pfx f) (env (envVarName pfx f)) f := by
  unfold processField
  rw [if_neg htag]

/-- Claim C2: for every field of a signed-integer kind, the override pass
parses the non-empty environment value with duration syntax when the field
declared type is a duration, and otherwise as a base-10 signed integer; a
malformed value makes the pass fail with a type-coercion error that
references the environment variable name. -/
theorem claim_C2 (pfx sv : String) (env : Env) (pre post : List Field)
    (m : FieldMeta) (i : Int)
    (hpre : (parseEnvs pfx env pre).2 = none)
    (htag : m.jsonTag ≠ "")
    (hro : m.readOnlyTag ≠ "true")
    (hsv : env (envVarName pfx ⟨m, .int64 i⟩) = sv)
    (hne : sv ≠ "") :
    (m.typeName = "Duration" →
      (∀ d, goParseDuration sv = some d →
        parseEnvs pfx env (pre ++ ⟨m, .int64 i⟩ :: post)
          = ((parseEnvs pfx env pre).1 ++ ⟨m, .int64 d⟩ :: (parseEnvs pfx env post).1,
             (parseEnvs pfx env post).2))
      ∧ (goParseDuration sv = none →
        parseEnvs pfx env (pre ++ ⟨m, .int64 i⟩ :: post)
          = ((parseEnvs pfx env pre).1 ++ ⟨m, .int64 i⟩ :: post,
             some (parseFailMsg sv m.name (envVarName pfx ⟨m, .int64 i⟩)))
        ∧ strContains (envVarName pfx ⟨m, .int64 i⟩)
            (parseFailMsg sv m.name (envVarName pfx ⟨m, .int64 i⟩))))
    ∧ (m.typeName ≠ "Duration" →
      (∀ d, goParseInt sv = some d →
        parseEnvs pfx env (pre ++ ⟨m, .int64 i⟩ :: post)
          = ((parseEnvs pfx env pre).1 ++ ⟨m, .int64 d⟩ :: (parseEnvs pfx env post).1,
             (parseEnvs pfx env post).2))
      ∧ (goParseInt sv = none →
        parseEnvs pfx env (pre ++ ⟨m, .int64 i⟩ :: post)
          = ((parseEnvs pfx env pre).1 ++ ⟨m, .int64 i⟩ :: post,
             some (parseFailMsg sv m.name (envVarName pfx ⟨m, .int64 i⟩)))
        ∧ strContains (envVarName pfx ⟨m, .int64 i⟩)
            (parseFailMsg sv m.name (envVarName pfx ⟨m, .int64 i⟩)))) := by
  have hproc := processField_eq pfx env ⟨m, .int64 i⟩ htag
  rw [hsv] at hproc
  constructor
  · intro hdur
    constructor
    · intro d hd
      have hpf : processField pfx env ⟨m, .int64 i⟩ = (⟨m, .int64 d⟩, none) := by
        rw [hproc]
        simp [applyEnvVal, hne, hro, hdur, hd]
      rw [parseEnvs_append_of_ok _ _ _ _ hpre, parseEnvs_cons_ok _ _ _ _ _ hpf]
    · intro hd
      have hpf : processField pfx env ⟨m, .int64 i⟩
          = (⟨m, .int64 i⟩, some (parseFailMsg sv m.name (envVarName pfx ⟨m, .int64 i⟩))) := by
        rw [hproc]
        simp [applyEnvVal, hne, hro, hdur, hd]
      refine ⟨?_, contains_parseFail _ _ _⟩
      rw [parseEnvs_append_of_ok _ _ _ _ hpre, parseEnvs_cons_err _ _ _ _ _ _ hpf]
  · intro hdur
    constructor
    · intro d hd
      have hpf : processField pfx env ⟨m, .int64 i⟩ = (⟨m, .int64 d⟩, none) := by
        rw [hproc]
        simp [applyEnvVal, hne, hro, hdur, hd]
      rw [parseEnvs_append_of_ok _ _ _ _ hpre, parseEnvs_cons_ok _ _ _ _ _ hpf]
    · intro hd
      have hpf : processField pfx env ⟨m, .int64 i⟩
          = (⟨m, .int64 i⟩, some (parseFailMsg sv m.name (envVarName pfx ⟨m, .int64 i⟩))) := by
        rw [hproc]
        simp [applyEnvVal, hne, hro, hdur, hd]
      refine ⟨?_, contains_parseFail _ _ _⟩
      rw [parseEnvs_append_of_ok _ _ _ _ hpre, parseEnvs_cons_err _ _ _ _ _ _ hpf]

/-- Metadata of an integer field of the jobs-pi addon record (scenario B of
the spec), declared type int32. -/
def completesMeta : FieldMeta := ⟨"Completes", "completes", "", "int32"⟩

/-- Environment for the C2 witness: the jobs-pi completes variable is set to
a non-numeric value. -/
def c2Env : Env := fun n => if n = "K8S_TESTER_JOBS_PI_COMPLETES" then "abc" else ""

/-- Metadata of a duration-typed field. -/
def timeoutMeta : FieldMeta := ⟨"Timeout", "timeout", "", "Duration"⟩

/-- Environment for the duration half of the C2 witness. -/
def c2DurEnv : Env := fun n => if n = "K8S_TESTER_TIMEOUT" then "5m" else ""

theorem claim_C2_witness :
    (parseEnvs "K8S_TESTER_JOBS_PI_" c2Env [(⟨completesMeta, .int64 1⟩ : Field)]
      = ([(⟨completesMeta, .int64 1⟩ : Field)],
         some (parseFailMsg "abc" "Completes"
           (envVarName "K8S_TESTER_JOBS_PI_" ⟨completesMeta, .int64 1⟩)))
      ∧ strContains (envVarName "K8S_TESTER_JOBS_PI_" ⟨completesMeta, .int64 1⟩)
          (parseFailMsg "abc" "Completes"
            (envVarName "K8S_TESTER_JOBS_PI_" ⟨completesMeta, .int64 1⟩)))
    ∧ parseEnvs "K8S_TESTER_" c2DurEnv [(⟨timeoutMeta, .int64 0⟩ : Field)]
      = ([(⟨timeoutMeta, .int64 300000000000⟩ : Field)], none) :=
  ⟨((claim_C2 "K8S_TESTER_JOBS_PI_" "abc" c2Env [] [] completesMeta 1 rfl
      (by decide) (by decide) (by decide) (by decide)).2 (by decide)).2 rfl,
   ((claim_C2 "K8S_TESTER_" "5m" c2DurEnv [] [] timeoutMeta 0 rfl
      (by decide) (by decide) (by decide) (by decide)).1 rfl).1 300000000000 (by decide)⟩

/-- Claim C9: for every field of ordered-sequence-of-strings kind, the
override pass splits the non-empty environment value on the comma; when that
split yields zero elements the field is left unchanged and no error is
produced, and otherwise the field is replaced by exactly the list of split
substrings. -/
theorem claim_C9 (pfx sv : String) (env : Env) (pre post : List Field)
    (m : FieldMeta) (xs : List String)
    (hpre : (parseEnvs pfx env pre).2 = none)
    (htag : m.jsonTag ≠ "")
    (hro : m.readOnlyTag ≠ "true")
    (hsv : env (envVarName pfx ⟨m, .strSlice xs⟩) = sv)
    (hne : sv ≠ "") :
    (goSplit sv "," = [] →
      parseEnvs pfx env (pre ++ ⟨m, .strSlice xs⟩ :: post)
        = ((parseEnvs pfx env pre).1 ++ ⟨m, .strSlice xs⟩ :: (parseEnvs pfx env post).1,
           (parseEnvs pfx env post).2))
    ∧ (goSplit sv "," ≠ [] →
      parseEnvs pfx env (pre ++ ⟨m, .strSlice xs⟩ :: post)
        = ((parseEnvs pfx env pre).1
            ++ ⟨m, .strSlice (goSplit sv ",")⟩ :: (parseEnvs pfx env post).1,
           (parseEnvs pfx env post).2)) := by
  have hproc := processField_eq pfx env ⟨m, .strSlice xs⟩ htag
  rw [hsv] at hproc
  constructor
  · intro hz
    have hpf : processField pfx env ⟨m, .strSlice xs⟩ = (⟨m, .strSlice xs⟩, none) := by
      rw [hproc]
      simp [applyEnvVal, hne, hro, hz]
    rw [parseEnvs_append_of_ok _ _ _ _ hpre, parseEnvs_cons_ok _ _ _ _ _ hpf]
  · intro hz
    have hlen : ¬ (goSplit sv ",").length < 1 := by
      simpa [Nat.lt_one_iff, List.length_eq_zero] using hz
    have hpf : processField pfx env ⟨m, .strSlice xs⟩
        = (⟨m, .strSlice (goSplit sv ",")⟩, none) := by
      rw [hproc]
      simp [applyEnvVal, hne, hro, hlen]
    rw [parseEnvs_append_of_ok _ _ _ _ hpre, parseEnvs_cons_ok _ _ _ _ _ hpf]

/-- Metadata of the log-outputs field of the root Config. -/
def logOutputsMeta : FieldMeta := ⟨"LogOutputs", "log-outputs", "", ""⟩

/-- Environment for the C9 witness. -/
def c9Env : Env := fun n => if n = "K8S_TESTER_LOG_OUTPUTS" then "stdout,out.log" else ""

theorem claim_C9_witness :
    parseEnvs "K8S_TESTER_" c9Env [(⟨logOutputsMeta, .strSlice ["stderr"]⟩ : Field)]
      = ([(⟨logOutputsMeta, .strSlice ["stdout", "out.log"]⟩ : Field)], none) :=
  (claim_C9 "K8S_TESTER_" "stdout,out.log" c9Env [] [] logOutputsMeta ["stderr"] rfl
      (by decide) (by decide) (by decide) (by decide)).2 (by decide)

/-- Claim C5: for every field of mapping kind with a non-empty matching
environment value, if the field name is outside the fixed whitelist (Tags,
NodeSelector, DeploymentNodeSelector, DeploymentNodeSelector2048) the pass
fails with an unsupported-field-kind error; if it is in the whitelist, the
value must parse as a JSON object literal, a parse failure failing the pass
with a type-coercion error naming the variable. -/
theorem claim_C5 (pfx sv : String) (env : Env) (pre post : List Field)
    (m : FieldMeta) (mp : List (String × String))
    (hpre : (parseEnvs pfx env pre).2 = none)
    (htag : m.jsonTag ≠ "")
    (hro : m.readOnlyTag ≠ "true")
    (hsv : env (envVarName pfx ⟨m, .strMap mp⟩) = sv)
    (hne : sv ≠ "") :
    (mapFieldAllowed m.name = false →
      parseEnvs pfx env (pre ++ ⟨m, .strMap mp⟩ :: post)
        = ((parseEnvs pfx env pre).1 ++ ⟨m, .strMap mp⟩ :: post,
           some (mapNotSupportedMsg m.name)))
    ∧ (mapFieldAllowed m.name = true →
      (∀ mm, parseJsonStrMap sv = some mm →
        parseEnvs pfx env (pre ++ ⟨m, .strMap mp⟩ :: post)
          = ((parseEnvs pfx env pre).1 ++ ⟨m, .strMap mm⟩ :: (parseEnvs pfx env post).1,
             (parseEnvs pfx env post).2))
      ∧ (parseJsonStrMap sv = none →
        parseEnvs pfx env (pre ++ ⟨m, .strMap mp⟩ :: post)
          = ((parseEnvs pfx env pre).1 ++ ⟨m, .strMap []⟩ :: post,
             some (parseFailMsg sv m.name (envVarName pfx ⟨m, .strMap mp⟩)))
        ∧ strContains (envVarName pfx ⟨m, .strMap mp⟩)
            (parseFailMsg sv m.name (envVarName pfx ⟨m, .strMap mp⟩)))) := by
  have hproc := processField_eq pfx env ⟨m, .strMap mp⟩ htag
  rw [hsv] at hproc
  constructor
  · intro hallow
    have hpf : processField pfx env ⟨m, .strMap mp⟩
        = (⟨m, .strMap mp⟩, some (mapNotSupportedMsg m.name)) := by
      rw [hproc]
      simp [applyEnvVal, hne, hro, hallow]
    rw [parseEnvs_append_of_ok _ _ _ _ hpre, parseEnvs_cons_err _ _ _ _ _ _ hpf]
  · intro hallow
    constructor
    · intro mm hmm
      have hpf : processField pfx env ⟨m, .strMap mp⟩ = (⟨m, .strMap mm⟩, none) := by
        rw [hproc]
        simp [applyEnvVal, hne, hro, hallow, hmm]
      rw [parseEnvs_append_of_ok _ _ _ _ hpre, parseEnvs_cons_ok _ _ _ _ _ hpf]
    · intro hbad
      have hpf : processField pfx env ⟨m, .strMap mp⟩
          = (⟨m, .strMap []⟩,
             some (parseFailMsg sv m.name (envVarName pfx ⟨m, .strMap mp⟩))) := by
        rw [hproc]
        simp [applyEnvVal, hne, hro, hallow, hbad]
      refine ⟨?_, contains_parseFail _ _ _⟩
      rw [parseEnvs_append_of_ok _ _ _ _ hpre, parseEnvs_cons_err _ _ _ _ _ _ hpf]

/-- Metadata of the Tags field of an addon record, in the map whitelist. -/
def tagsMeta : FieldMeta := ⟨"Tags", "tags", "", ""⟩

/-- Metadata of a map-kind field outside the whitelist. -/
def labelsMeta : FieldMeta := ⟨"Labels", "labels", "", ""⟩

/-- Metadata of the NodeSelector field of an addon record. -/
def nodeSelMeta : FieldMeta := ⟨"NodeSelector", "node-selector", "", ""⟩

/-- Environment for the C5 witness: tags is malformed JSON, labels is set,
and node-selector is a well-formed JSON object. -/
def c5Env : Env := fun n =>
  if n = "K8S_TESTER_TAGS" then "not-json"
  else if n = "K8S_TESTER_LABELS" then "x"
  else if n = "K8S_TESTER_NODE_SELECTOR" then "\x7b\"a\":\"b\"\x7d"
  else ""

theorem claim_C5_witness :
    parseEnvs "K8S_TESTER_" c5Env [(⟨labelsMeta, .strMap []⟩ : Field)]
      = ([(⟨labelsMeta, .strMap []⟩ : Field)], some (mapNotSupportedMsg "Labels"))
    ∧ parseEnvs "K8S_TESTER_" c5Env [(⟨nodeSelMeta, .strMap []⟩ : Field)]
      = ([(⟨nodeSelMeta, .strMap [("a", "b")]⟩ : Field)], none)
    ∧ (parseEnvs "K8S_TESTER_" c5Env [(⟨tagsMeta, .strMap []⟩ : Field)]
        = ([(⟨tagsMeta, .strMap []⟩ : Field)],
           some (parseFailMsg "not-json" "Tags" (envVarName "K8S_TESTER_" ⟨tagsMeta, .strMap []⟩)))
      ∧ strContains (envVarName "K8S_TESTER_" ⟨tagsMeta, .strMap []⟩)
          (parseFailMsg "not-json" "Tags" (envVarName "K8S_TESTER_" ⟨tagsMeta, .strMap []⟩))) :=
  ⟨(claim_C5 "K8S_TESTER_" "x" c5Env [] [] labelsMeta [] rfl
      (by decide) (by decide) (by decide) (by decide)).1 (by decide),
   ((claim_C5 "K8S_TESTER_" "\x7b\"a\":\"b\"\x7d" c5Env [] [] nodeSelMeta [] rfl
      (by decide) (by decide) (by decide) (by decide)).2 (by decide)).1 [("a", "b")] (by decide),
   ((claim_C5 "K8S_TESTER_" "not-json" c5Env [] [] tagsMeta [] rfl
      (by decide) (by decide) (by decide) (by decide)).2 (by decide)).2 (by decide)⟩

/-- Claim C10: for every whitelisted mapping-kind field, when the matching
environment variable holds a non-empty value that fails to parse as a JSON
object, the override pass returns an error but does not leave the field at
its prior value: the field has already been overwritten with an empty map
before the parse was attempted, so any pre-existing map contents are lost on
the error path. -/
theorem claim_C10 (pfx sv : String) (env : Env) (pre post : List Field)
    (m : FieldMeta) (mp : List (String × String))
    (hpre : (parseEnvs pfx env pre).2 = none)
    (htag : m.jsonTag ≠ "")
    (hro : m.readOnlyTag ≠ "true")
    (hallow : mapFieldAllowed m.name = true)
    (hsv : env (envVarName pfx ⟨m, .strMap mp⟩) = sv)
    (hne : sv ≠ "")
    (hbad : parseJsonStrMap sv = none) :
    parseEnvs pfx env (pre ++ ⟨m, .strMap mp⟩ :: post)
      = ((parseEnvs pfx env pre).1 ++ ⟨m, .strMap []⟩ :: post,
         some (parseFailMsg sv m.name (envVarName pfx ⟨m, .strMap mp⟩)))
    ∧ (mp ≠ [] → (⟨m, .strMap []⟩ : Field) ≠ ⟨m, .strMap mp⟩) := by
  have hproc := processField_eq pfx env ⟨m, .strMap mp⟩ htag
  rw [hsv] at hproc
  have hpf : processField pfx env ⟨m, .strMap mp⟩
      = (⟨m, .strMap []⟩,
         some (parseFailMsg sv m.name (envVarName pfx ⟨m, .strMap mp⟩))) := by
    rw [hproc]
    simp [applyEnvVal, hne, hro, hallow, hbad]
  refine ⟨?_, fun hmp h => hmp ?_⟩
  · rw [parseEnvs_append_of_ok _ _ _ _ hpre, parseEnvs_cons_err _ _ _ _ _ _ hpf]
  · exact (FieldVal.strMap.inj (congrArg Field.val h)).symm

/-- Environment for the C10 witness: only the tags variable is set, to a
value that is not JSON. -/
def c10Env : Env := fun n => if n = "K8S_TESTER_TAGS" then "oops" else ""

theorem claim_C10_witness :
    parseEnvs "K8S_TESTER_" c10Env [(⟨tagsMeta, .strMap [("team", "dev")]⟩ : Field)]
      = ([(⟨tagsMeta, .strMap []⟩ : Field)],
         some (parseFailMsg "oops" "Tags"
           (envVarName "K8S_TESTER_" ⟨tagsMeta, .strMap [("team", "dev")]⟩)))
    ∧ (⟨tagsMeta, .strMap []⟩ : Field) ≠ ⟨tagsMeta, .strMap [("team", "dev")]⟩ :=
  ⟨(claim_C10 "K8S_TESTER_" "oops" c10Env [] [] tagsMeta [("team", "dev")] rfl
      (by decide) (by decide) (by decide) (by decide) (by decide) (by decide)).1,
   (claim_C10 "K8S_TESTER_" "oops" c10Env [] [] tagsMeta [("team", "dev")] rfl
      (by decide) (by decide) (by decide) (by decide) (by decide) (by decide)).2 (by decide)⟩

theorem isAbs_append (a b : String) (h : isAbs a = true) : isAbs (a ++ b) = true := by
  unfold isAbs at *
  rw [String.data_append]
  rcases ha : a.data with _ | ⟨c, rest⟩
  · rw [ha] at h
    simp at h
  · rw [ha] at h
    simpa using h

theorem isAbs_absPath (cwd p : String) (h : isAbs cwd = true) :
    isAbs (absPath cwd p) = true := by
  unfold absPath
  by_cases hp : isAbs p = true
  · rw [if_pos hp]
    exact hp
  · rw [if_neg (by simpa using hp)]
    exact isAbs_append _ _ (isAbs_append _ _ h)

theorem absPath_of_abs (cwd p : String) (h : isAbs p = true) : absPath cwd p = p := by
  unfold absPath
  rw [if_pos h]

theorem ne_empty_of_isAbs (p : String) (h : isAbs p = true) : p ≠ "" := by
  intro he
  subst he
  simp [isAbs] at h

theorem resolveKubeconfigPath_ConfigPath (cwd : String) (c : ConfigGo) :
    (resolveKubeconfigPath cwd c).ConfigPath = c.ConfigPath := by
  unfold resolveKubeconfigPath
  split <;> rfl

theorem resolveConfigPath_of_abs (cwd : String) (c : ConfigGo)
    (h : isAbs c.ConfigPath = true) : resolveConfigPath cwd c = c := by
  unfold resolveConfigPath
  rw [if_neg (by simp [h])]

theorem resolveKubeconfigPath_of (cwd : String) (c : ConfigGo)
    (h : c.KubeconfigPath = "" ∨ isAbs c.KubeconfigPath = true) :
    resolveKubeconfigPath cwd c = c := by
  unfold resolveKubeconfigPath
  rcases h with h | h
  · rw [if_neg (by simp [h])]
  · rw [if_neg (by simp [h])]

theorem resolvePaths_ConfigPath_abs (cwd : String) (c : ConfigGo)
    (hcwd : isAbs cwd = true) (hne : c.ConfigPath ≠ "") :
    isAbs (resolvePaths cwd c).ConfigPath = true := by
  unfold resolvePaths
  rw [resolveKubeconfigPath_ConfigPath]
  unfold resolveConfigPath
  by_cases habs : isAbs c.ConfigPath = true
  · rw [if_neg (by simp [habs])]
    exact habs
  · rw [if_pos ⟨hne, by simpa using habs⟩]
    exact isAbs_absPath _ _ hcwd

theorem resolvePaths_Kubeconfig (cwd : String) (c : ConfigGo)
    (hcwd : isAbs cwd = true) :
    (resolvePaths cwd c).KubeconfigPath = ""
      ∨ isAbs (resolvePaths cwd c).KubeconfigPath = true := by
  unfold resolvePaths resolveKubeconfigPath
  by_cases h : (resolveConfigPath cwd c).KubeconfigPath ≠ ""
      ∧ ¬ isAbs (resolveConfigPath cwd c).KubeconfigPath
  · rw [if_pos h]
    exact .inr (isAbs_absPath _ _ hcwd)
  · rw [if_neg h]
    rcases not_and_or.mp h with h1 | h2
    · exact .inl (not_ne_iff.mp h1)
    · exact .inr (by simpa using h2)

theorem resolvePaths_Kubeconfig_set (cwd : String) (c : ConfigGo)
    (hcwd : isAbs cwd = true) (hk : c.KubeconfigPath ≠ "") :
    isAbs (resolvePaths cwd c).KubeconfigPath = true := by
  have hk2 : (resolveConfigPath cwd c).KubeconfigPath = c.KubeconfigPath := by
    unfold resolveConfigPath
    split <;> rfl
  unfold resolvePaths resolveKubeconfigPath
  by_cases habs : isAbs (resolveConfigPath cwd c).KubeconfigPath = true
  · rw [if_neg (by simp [habs])]
    exact habs
  · rw [if_pos ⟨by rw [hk2]; exact hk, by simpa using habs⟩]
    exact isAbs_absPath _ _ hcwd

theorem resolvePaths_idem (cwd : String) (c : ConfigGo)
    (hcwd : isAbs cwd = true) (hne : c.ConfigPath ≠ "") :
    resolvePaths cwd (resolvePaths cwd c) = resolvePaths cwd c := by
  have h1 := resolvePaths_ConfigPath_abs cwd c hcwd hne
  have h2 := resolvePaths_Kubeconfig cwd c hcwd
  show resolveKubeconfigPath cwd (resolveConfigPath cwd (resolvePaths cwd c))
      = resolvePaths cwd c
  rw [resolveConfigPath_of_abs _ _ h1, resolveKubeconfigPath_of _ _ h2]

theorem readFile_writeFile (fs : FS) (p : String) (d : ConfigDoc) :
    readFile (writeFile fs p d) p = some d := by
  simp [readFile, writeFile]

theorem unmarshal_marshal (c : ConfigGo) : unmarshalStrict (marshalCfg c) = .ok c := rfl

theorem syncUnlocked_cfg (cwd : String) (writable : String → Bool) (fs : FS)
    (c : ConfigGo) (h : c.ConfigPath ≠ "") :
    (syncUnlocked cwd writable fs c).2.1 = resolvePaths cwd c := by
  unfold syncUnlocked
  rw [if_neg h]
  split <;> rfl

theorem sync_result_abs (cwd : String) (writable : String → Bool) (fs : FS)
    (c : ConfigGo) (hcwd : isAbs cwd = true) (habs : isAbs c.ConfigPath = true) :
    isAbs (syncUnlocked cwd writable fs c).2.1.ConfigPath = true := by
  have hne := ne_empty_of_isAbs _ habs
  rw [syncUnlocked_cfg _ _ _ _ hne]
  exact resolvePaths_ConfigPath_abs _ _ hcwd hne

theorem configPath_update_self (c : ConfigGo) :
    { c with ConfigPath := c.ConfigPath } = c := rfl

/-- Claim C6: Load rejects any persisted file containing a key not
recognized by the configuration schema: for every input file with an extra
unknown key, Load returns an error and no configuration tree (the error
result carries no tree and the file system is untouched), leaving no
partially-populated tree observable by the caller. -/
theorem claim_C6 (cwd : String) (writable : String → Bool) (fs : FS) (p : String)
    (d : ConfigDoc)
    (hread : readFile fs p = some d)
    (hunk : d.unknownKeys ≠ []) :
    (Load cwd writable fs p).1
      = .error ("error unmarshaling JSON: unknown field "
          ++ String.intercalate ", " d.unknownKeys)
    ∧ (Load cwd writable fs p).2 = fs
    ∧ ∀ cfg, (Load cwd writable fs p).1 ≠ .ok cfg := by
  have hu : unmarshalStrict d
      = .error ("error unmarshaling JSON: unknown field "
          ++ String.intercalate ", " d.unknownKeys) := by
    unfold unmarshalStrict
    rw [if_neg hunk]
  have hl : Load cwd writable fs p
      = (.error ("error unmarshaling JSON: unknown field "
          ++ String.intercalate ", " d.unknownKeys), fs) := by
    simp [Load, hread, hu]
  refine ⟨by rw [hl], by rw [hl], ?_⟩
  intro cfg h
  rw [hl] at h
  simp at h

/-- A persisted document holding one key outside the schema. -/
def unknownDoc : ConfigDoc :=
  { prompt := true, clusterName := "c", configPath := "cfg.yaml", logColor := true,
    logColorOverride := "", logLevel := "info", logOutputs := ["stderr"],
    kubectlDownloadURL := "", kubectlPath := "", kubeconfigPath := "",
    kubeconfigContext := "", minimumNodes := 1, totalNodes := 0, addOnDocs := [],
    unknownKeys := ["unexpected_field"] }

/-- File system for the C6 witness. -/
def fs6 : FS := [("cfg.yaml", unknownDoc)]

/-- Everything is writable. -/
def allWritable : String → Bool := fun _ => true

theorem claim_C6_witness :
    (Load "/work" allWritable fs6 "cfg.yaml").1
      = .error ("error unmarshaling JSON: unknown field "
          ++ String.intercalate ", " unknownDoc.unknownKeys)
    ∧ (Load "/work" allWritable fs6 "cfg.yaml").2 = fs6 :=
  ⟨(claim_C6 "/work" allWritable fs6 "cfg.yaml" unknownDoc rfl (by decide)).1,
   (claim_C6 "/work" allWritable fs6 "cfg.yaml" unknownDoc rfl (by decide)).2.1⟩

/-- Claim C7: after a successful Load, and after a successful Sync, the
ConfigPath holds an absolute path, never a relative one; Sync also resolves
a non-empty KubeconfigPath to an absolute path, and Sync fails when the
ConfigPath is empty. -/
theorem claim_C7 (cwd : String) (writable : String → Bool) (fs : FS) (p : String)
    (c : ConfigGo) (hcwd : isAbs cwd = true) :
    (∀ cfg, (Load cwd writable fs p).1 = .ok cfg → isAbs cfg.ConfigPath = true)
    ∧ (∀ fs2 c2, Sync cwd writable fs c = (fs2, c2, none) →
        isAbs c2.ConfigPath = true
        ∧ (c.KubeconfigPath ≠ "" → isAbs c2.KubeconfigPath = true))
    ∧ (c.ConfigPath = "" →
        (Sync cwd writable fs c).2.2 = some "empty config path") := by
  refine ⟨?_, ?_, ?_⟩
  · intro cfg h
    unfold Load at h
    rcases hr : readFile fs p with _ | d
    · rw [hr] at h
      simp at h
    · rw [hr] at h
      simp only [] at h
      rcases hu : unmarshalStrict d with e | c0
      · rw [hu] at h
        simp at h
      · rw [hu] at h
        simp at h
        subst h
        exact sync_result_abs cwd writable fs _ hcwd (isAbs_absPath cwd p hcwd)
  · intro fs2 c2 h
    unfold Sync syncUnlocked at h
    by_cases he : c.ConfigPath = ""
    · rw [if_pos he] at h
      simp at h
    · rw [if_neg he] at h
      by_cases hw : writable (resolvePaths cwd c).ConfigPath = true
      · rw [if_pos hw] at h
        have hc2 : c2 = resolvePaths cwd c := by
          have h21 := congrArg (fun x => x.2.1) h
          simpa using h21.symm
        subst hc2
        exact ⟨resolvePaths_ConfigPath_abs _ _ hcwd he,
               fun hk => resolvePaths_Kubeconfig_set _ _ hcwd hk⟩
      · rw [if_neg hw] at h
        simp at h
  · intro he
    unfold Sync syncUnlocked
    rw [if_pos he]

/-- Root config for the Sync and round-trip witnesses: both paths relative
(scenario D of the spec). -/
def c8Cfg : ConfigGo :=
  { Prompt := true, ClusterName := "k8s-x", ConfigPath := "cfg.yaml",
    LogColor := true, LogColorOverride := "", LogLevel := "info",
    LogOutputs := ["stderr"], KubectlDownloadURL := "https://example/kubectl",
    KubectlPath := "/tmp/kubectl-test-v1.21.0", KubeconfigPath := "kube.cfg",
    KubeconfigContext := "", MinimumNodes := 1, TotalNodes := 0,
    addOnDocs := [("add_on_jobs_pi", "doc")] }

/-- The same config after Sync resolved both paths against /work. -/
def c8Saved : ConfigGo :=
  { c8Cfg with ConfigPath := "/work/cfg.yaml", KubeconfigPath := "/work/kube.cfg" }

/-- A config whose ConfigPath is empty, rejected by Sync. -/
def emptyPathCfg : ConfigGo := { c8Cfg with ConfigPath := "" }

theorem claim_C7_witness :
    isAbs c8Saved.ConfigPath = true
    ∧ isAbs c8Saved.KubeconfigPath = true
    ∧ (Sync "/work" allWritable [] emptyPathCfg).2.2 = some "empty config path" :=
  ⟨((claim_C7 "/work" allWritable [] "cfg.yaml" c8Cfg (by decide)).2.1
      (writeFile [] "/work/cfg.yaml" (marshalCfg c8Saved)) c8Saved (by decide)).1,
   ((claim_C7 "/work" allWritable [] "cfg.yaml" c8Cfg (by decide)).2.1
      (writeFile [] "/work/cfg.yaml" (marshalCfg c8Saved)) c8Saved (by decide)).2
     (by decide),
   (claim_C7 "/work" allWritable [] "cfg.yaml" emptyPathCfg (by decide)).2.2 rfl⟩

/-- Claim C8: round-trip law.  Saving a configuration tree with Sync and
then loading the written file with Load reproduces the tree exactly: Load
returns the tree as it stands after Sync (Sync mutates the tree in place
when it resolves relative paths, so that tree is the original object), equal
in every serialization-tagged field. -/
theorem claim_C8 (cwd : String) (writable : String → Bool) (fs fs2 : FS)
    (c c2 : ConfigGo)
    (hcwd : isAbs cwd = true)
    (hsync : Sync cwd writable fs c = (fs2, c2, none)) :
    (Load cwd writable fs2 c2.ConfigPath).1 = .ok c2 := by
  unfold Sync syncUnlocked at hsync
  by_cases he : c.ConfigPath = ""
  · rw [if_pos he] at hsync
    simp at hsync
  · rw [if_neg he] at hsync
    by_cases hw : writable (resolvePaths cwd c).ConfigPath = true
    · rw [if_pos hw] at hsync
      have hfs2 : fs2
          = writeFile fs (resolvePaths cwd c).ConfigPath
              (marshalCfg (resolvePaths cwd c)) := by
        have h1 := congrArg (fun x => x.1) hsync
        simpa using h1.symm
      have hc2 : c2 = resolvePaths cwd c := by
        have h21 := congrArg (fun x => x.2.1) hsync
        simpa using h21.symm
      subst hfs2
      subst hc2
      have habs : isAbs (resolvePaths cwd c).ConfigPath = true :=
        resolvePaths_ConfigPath_abs _ _ hcwd he
      have hne := ne_empty_of_isAbs _ habs
      simp [Load, readFile_writeFile, unmarshal_marshal,
        absPath_of_abs _ _ habs, configPath_update_self]
      rw [syncUnlocked_cfg _ _ _ _ hne, resolvePaths_idem cwd c hcwd he]
    · rw [if_neg hw] at hsync
      simp at hsync

theorem claim_C8_witness :
    (Load "/work" allWritable
        (writeFile [] "/work/cfg.yaml" (marshalCfg c8Saved)) "/work/cfg.yaml").1
      = .ok c8Saved :=
  claim_C8 "/work" allWritable []
    (writeFile [] "/work/cfg.yaml" (marshalCfg c8Saved)) c8Cfg c8Saved
    (by decide) (by decide)

end K8sTester
